import Mathlib

/-!
Shallow embedding of the entity-resolution and visualization-compute core of
the Global-Presence-Map repository, together with proofs of its specified
properties.

Source files embedded:
- `src/lib/normalize.ts`   (`normalizeInput`)
- `src/lib/cities.ts`      (`normalizeCityName`, `getCityByName`, `getCityCoordinates`)
- `src/lib/members.ts`     (`loadMembers`, `findMember`, `findOrCreateMember`, `getMembersByIds`)
- `src/lib/validation.ts`  (zod schemas for members and meetings)
- `src/lib/meetings.ts`    (`generateMeetingId`, `saveMeeting`, `loadMeeting`, `createMeeting`)
- `app/api/meetings/[id]/visualization/route.ts` (GET handler: points and arcs)
- `app/api/meetings/route.ts` (POST handler: member creation loop and warnings)

Modelling conventions:
- JavaScript strings are modelled by Lean `String` (a list of characters);
  `toLowerCase`/`toUpperCase` are modelled character-wise by `Char.toLower` /
  `Char.toUpper` (the ASCII case mapping), and the regex class `\s` by
  `Char.isWhitespace` (space, tab, CR, LF).
- Nondeterministic inputs (UUIDs from `generateId`, the current time from
  `new Date()`) are passed in explicitly as arguments.
- The persisted member collection (`members.json`) is a `List Member`; the
  meetings directory is an association list keyed by meeting id; stateful
  functions take the store as an argument and return the updated store.
- JSON numbers (coordinates) are modelled by `Rat`; no arithmetic is ever
  performed on them, they are only copied.
- Fallible code (`throw` / `catch`) is modelled with `Except` / `Option`.
-/

namespace GPM

/-! ### Character and string utilities -/

/-- The regex class `\s` used by `normalize.ts` (split on runs of whitespace),
modelled by the ASCII whitespace characters. -/
def isWsChar (c : Char) : Bool := c.isWhitespace

/-- JavaScript `s.toLowerCase()` (ASCII case mapping, applied per character). -/
def jsToLower (s : String) : String := String.mk (s.data.map Char.toLower)

/-- JavaScript `s.trim()`: remove leading and trailing whitespace,
at the level of character lists. -/
def trimChars (l : List Char) : List Char :=
  ((l.dropWhile isWsChar).reverse.dropWhile isWsChar).reverse

/-- The composite `t.trim().split(/\s+/)` of `normalize.ts`, with the empty
pieces a regex split never produces removed: the list of maximal runs of
non-whitespace characters of `l`, in order.  (For the whitespace-only string
the JS pipeline maps its single empty piece to the empty word and joins to
`""`, which coincides with the empty word list produced here.) -/
def words : List Char → List (List Char)
  | [] => []
  | c :: cs =>
    if isWsChar c then words cs
    else
      match words cs, cs.head? with
      | w :: ws, some c' => if isWsChar c' then [c] :: w :: ws else (c :: w) :: ws
      | _, _ => [[c]]

/-- JavaScript `array.join(" ")`. -/
def joinWords : List (List Char) → List Char
  | [] => []
  | [w] => w
  | w :: w' :: ws => w ++ ' ' :: joinWords (w' :: ws)

/-- One word of `normalize.ts`:
`word.charAt(0).toUpperCase() + word.slice(1).toLowerCase()`. -/
def capitalizeWord : List Char → List Char
  | [] => []
  | c :: cs => c.toUpper :: cs.map Char.toLower

/-- `normalizeInput` from `src/lib/normalize.ts`:
trim, split on runs of whitespace, capitalize each word, join with single
spaces; absent (`undefined`) and empty input give `""`. -/
def normalizeInput (text : Option String) : String :=
  match text with
  | none => ""
  | some t => String.mk (joinWords ((words t.data).map capitalizeWord))

/-- `'0' ≤ c ≤ '9'`. -/
def isDigitChar (c : Char) : Bool := '0' ≤ c && c ≤ '9'

/-- Helper for `isIsoDatetime`: one or more characters, all digits, followed
by a final `'Z'`. -/
def digitsThenZ : List Char → Bool
  | ['Z'] => true
  | c :: rest => isDigitChar c && digitsThenZ rest
  | [] => false

/-- Helper for `isIsoDatetime`: the tail after the seconds field, either
`"Z"` or `"." ++ digits ++ "Z"` with at least one digit. -/
def fracThenZ : List Char → Bool
  | ['Z'] => true
  | '.' :: c :: rest => isDigitChar c && digitsThenZ (c :: rest)
  | _ => false

/-- The check performed by zod's `z.string().datetime()` (a third-party
library, not part of the repository): the UTC ISO-8601 pattern
`\d{4}-\d{2}-\d{2}T\d{2}:\d{2}:\d{2}(\.\d+)?Z`.  `Date.prototype.toISOString`
always produces a string of this shape. -/
def isIsoDatetime (s : String) : Bool :=
  match s.data with
  | y1 :: y2 :: y3 :: y4 :: '-' :: m1 :: m2 :: '-' :: d1 :: d2 :: 'T' ::
      h1 :: h2 :: ':' :: n1 :: n2 :: ':' :: s1 :: s2 :: rest =>
    [y1, y2, y3, y4, m1, m2, d1, d2, h1, h2, n1, n2, s1, s2].all isDigitChar
      && fracThenZ rest
  | _ => false

/-! ### City resolver (`src/lib/cities.ts`) -/

/-- The `City` record of `src/lib/validation.ts` (`CitySchema`). -/
structure City where
  normalizedName : String
  displayName : String
  lat : Rat
  lng : Rat
  countryCode : Option String
  lastUpdated : Option String
deriving DecidableEq

/-- `normalizeCityName` from `src/lib/cities.ts`:
`cityName.toLowerCase().trim()` — lower-case and trim, internal spaces
preserved. -/
def normalizeCityName (cityName : String) : String :=
  String.mk (trimChars (jsToLower cityName).data)

/-- `getCityByName` from `src/lib/cities.ts`.  The in-memory cache is a map
built from the dataset by `citiesCache.set(city.normalizedName, city)`, so a
later dataset entry with the same key overwrites an earlier one; `get` is
therefore modelled by searching the reversed dataset for the first entry
keyed by the normalized input. -/
def getCityByName (dataset : List City) (cityName : String) : Option City :=
  dataset.reverse.find? (fun c => c.normalizedName == normalizeCityName cityName)

/-- `getCityCoordinates` from `src/lib/cities.ts`. -/
def getCityCoordinates (dataset : List City) (cityName : String) : Option (Rat × Rat) :=
  (getCityByName dataset cityName).map (fun c => (c.lat, c.lng))

/-! ### Member registry (`src/lib/members.ts`) -/

/-- The stored member record.  `id` is an `Option` because legacy records may
lack one (`findMember` has an explicit backward-compatibility path for this);
JavaScript's falsy test `!found.id` also treats an empty-string id as absent. -/
structure Member where
  id : Option String
  name : String
  city : String
  createdAt : String
deriving DecidableEq

/-- JavaScript's falsy test `!member.id`: the id is `undefined` or `""`. -/
def memberIdFalsy (m : Member) : Bool :=
  match m.id with
  | none => true
  | some s => s == ""

/-- The match predicate of `findMember`:
case-insensitive equality of name and city. -/
def memberMatches (name city : String) (m : Member) : Bool :=
  jsToLower m.name == jsToLower name && jsToLower m.city == jsToLower city

/-- Replace the first element satisfying `p` (the in-place mutation of the
object returned by `Array.prototype.find`). -/
def replaceFirst (p : Member → Bool) (new : Member) : List Member → List Member
  | [] => []
  | m :: ms => if p m then new :: ms else m :: replaceFirst p new ms

/-- `findMember` from `src/lib/members.ts`: find a member by case-insensitive
(name, city); if the found record lacks an id, assign a fresh one (`freshId`
stands for the `generateId()` result) and persist the corrected collection.
Returns the found member (if any) and the possibly-updated collection. -/
def findMember (freshId : String) (name city : String) (members : List Member) :
    Option Member × List Member :=
  match members.find? (memberMatches name city) with
  | none => (none, members)
  | some found =>
    if memberIdFalsy found then
      let fixed := { found with id := some freshId }
      (some fixed, replaceFirst (memberMatches name city) fixed members)
    else (some found, members)

/-- `findOrCreateMember` from `src/lib/members.ts`.  `freshId` stands for the
`generateId()` result of this invocation and `now` for
`new Date().toISOString()`.  The first component is the thrown error or the
returned member; the second is the stored collection after the call. -/
def findOrCreateMember (freshId now : String) (name city : String)
    (members : List Member) : Except String Member × List Member :=
  let normalizedName := normalizeInput (some name)
  let normalizedCity := normalizeInput (some city)
  if normalizedName == "" || normalizedCity == "" then
    (Except.error "Name and city are required", members)
  else
    match findMember freshId normalizedName normalizedCity members with
    | (some existing, members') => (Except.ok existing, members')
    | (none, members') =>
      let newMember : Member :=
        { id := some freshId, name := normalizedName, city := normalizedCity,
          createdAt := now }
      (Except.ok newMember, members' ++ [newMember])

/-- `getMembersByIds` from `src/lib/members.ts`:
`ids.map(id => members.find(m => m.id === id)).filter(m => m !== undefined && m.id !== undefined)`. -/
def getMembersByIds (members : List Member) (ids : List String) : List Member :=
  (ids.map (fun i => members.find? (fun m => m.id == some i))).filterMap
    (fun found =>
      match found with
      | some m => if m.id.isSome then some m else none
      | none => none)

/-! ### Loading the member collection (`loadMembers` of `src/lib/members.ts`) -/

/-- A member record as parsed from raw JSON: every field may be absent. -/
structure RawMember where
  id : Option String
  name : Option String
  city : Option String
  createdAt : Option String
deriving DecidableEq

/-- The per-record check of `MemberSchema` from `src/lib/validation.ts`:
`id` a nonempty string, `name` and `city` nonempty strings of at most 100
characters, `createdAt` a datetime string. -/
def validRawMember (m : RawMember) : Bool :=
  (match m.id with | some s => 1 ≤ s.length | none => false)
    && (match m.name with | some s => 1 ≤ s.length && s.length ≤ 100 | none => false)
    && (match m.city with | some s => 1 ≤ s.length && s.length ≤ 100 | none => false)
    && (match m.createdAt with | some s => isIsoDatetime s | none => false)

/-- `safeValidateMembers` from `src/lib/validation.ts`: `safeParse` against
`MembersArraySchema`, `none` on failure. -/
def safeValidateMembers (data : List RawMember) : Option (List RawMember) :=
  if data.all validRawMember then some data else none

/-- The possible states of the backing `members.json` file: missing,
unreadable-or-unparsable (reading or `JSON.parse` throws), or parsed to an
array of raw records. -/
inductive MembersFile where
  | missing
  | unparsable
  | parsed (data : List RawMember)

/-- `loadMembers` from `src/lib/members.ts`: `[]` for a missing file, `[]`
when reading or parsing throws (the `catch` branch), otherwise
`safeValidateMembers(data) ?? data` — the raw data is returned unvalidated
when validation fails. -/
def loadMembers : MembersFile → List RawMember
  | .missing => []
  | .unparsable => []
  | .parsed data => (safeValidateMembers data).getD data

/-! ### Meeting registry (`src/lib/meetings.ts`) -/

/-- The `Meeting` record of `src/lib/validation.ts` (`MeetingSchema`);
`createdAt` is optional there. -/
structure Meeting where
  id : String
  title : String
  date : String
  participantIds : List String
  createdAt : Option String
deriving DecidableEq

/-- The character class `[a-z0-9]` of `generateMeetingId`'s slug regex. -/
def isSlugChar (c : Char) : Bool :=
  ('a' ≤ c && c ≤ 'z') || ('0' ≤ c && c ≤ '9')

/-- `.replace(/[^a-z0-9]+/g, '-')`: collapse each maximal run of
non-alphanumeric characters into a single hyphen. -/
def collapseNonSlug : List Char → List Char
  | [] => []
  | c :: cs =>
    if isSlugChar c then c :: collapseNonSlug cs
    else
      match cs.head? with
      | some c' => if isSlugChar c' then '-' :: collapseNonSlug cs else collapseNonSlug cs
      | none => ['-']

/-- `.replace(/^-+|-+$/g, '')`: strip leading and trailing hyphens. -/
def stripHyphens (l : List Char) : List Char :=
  ((l.dropWhile (· == '-')).reverse.dropWhile (· == '-')).reverse

/-- The slug computation of `generateMeetingId` from `src/lib/meetings.ts`:
lower-case, collapse non-alphanumeric runs to single hyphens, strip
leading/trailing hyphens. -/
def slugify (title : String) : String :=
  String.mk (stripHyphens (collapseNonSlug (jsToLower title).data))

/-- `now.toISOString().split('T')[0]`: the calendar-date part of an ISO
timestamp. -/
def datePart (nowIso : String) : String :=
  String.mk (nowIso.data.takeWhile (· ≠ 'T'))

/-- `generateMeetingId` from `src/lib/meetings.ts`: `"{slug}-{date}"`. -/
def generateMeetingId (title date : String) : String :=
  slugify title ++ "-" ++ date

/-- One meeting file per id: writing `{id}.json` replaces the record stored
under that id, or creates it. -/
def saveMeeting (store : List (String × Meeting)) (m : Meeting) :
    List (String × Meeting) :=
  match store with
  | [] => [(m.id, m)]
  | (k, v) :: rest => if k == m.id then (k, m) :: rest else (k, v) :: saveMeeting rest m

/-- `validateMeeting` from `src/lib/validation.ts` (`MeetingSchema.parse`),
as used inside `loadMeeting`'s `try`: `id` nonempty, `title` between 1 and
200 characters, `createdAt` (when present) a datetime; a failure is caught
by `loadMeeting` and becomes `none`. -/
def validateMeeting (m : Meeting) : Option Meeting :=
  if 1 ≤ m.id.length && 1 ≤ m.title.length && m.title.length ≤ 200
      && m.createdAt.all isIsoDatetime then
    some m
  else none

/-- `loadMeeting` from `src/lib/meetings.ts`: `null` for a missing file, the
validated record otherwise, with a validation failure treated as `null`. -/
def loadMeeting (store : List (String × Meeting)) (meetingId : String) :
    Option Meeting :=
  match store.lookup meetingId with
  | none => none
  | some data => validateMeeting data

/-- `createMeeting` from `src/lib/meetings.ts`.  `nowIso` stands for
`new Date().toISOString()`; the stored record's `date` is its calendar-date
part.  Returns the created meeting and the updated store. -/
def createMeeting (nowIso : String) (title : String) (participantIds : List String)
    (store : List (String × Meeting)) : Meeting × List (String × Meeting) :=
  let date := datePart nowIso
  let meeting : Meeting :=
    { id := generateMeetingId title date, title := title, date := date,
      participantIds := participantIds, createdAt := some nowIso }
  (meeting, saveMeeting store meeting)

/-! ### Visualization computation (GET `/api/meetings/[id]/visualization`) -/

/-- One computed visualization vertex. -/
structure Point where
  memberId : Option String
  memberName : String
  cityName : String
  lat : Rat
  lng : Rat
deriving DecidableEq, Inhabited

/-- One computed visualization edge. -/
structure Arc where
  startLat : Rat
  startLng : Rat
  endLat : Rat
  endLng : Rat
deriving DecidableEq

/-- The `meeting` summary included in the GET response. -/
structure MeetingSummary where
  id : String
  title : String
  date : String
deriving DecidableEq

/-- The full JSON body the GET visualization handler returns to its caller:
exactly a meeting summary, the points and the arcs. -/
structure VisualizationResponse where
  meeting : MeetingSummary
  points : List Point
  arcs : List Arc
deriving DecidableEq

/-- The points loop of the GET handler: for each member resolve its city via
`getCityCoordinates`; an unresolved member is skipped and the message
`console.warn` logs for it is collected in the second component (the server
console, a channel separate from the response). -/
def computePointsLog (dataset : List City) : List Member → List Point × List String
  | [] => ([], [])
  | m :: ms =>
    let rest := computePointsLog dataset ms
    match getCityCoordinates dataset m.city with
    | some (la, ln) =>
      (⟨m.id, m.name, m.city, la, ln⟩ :: rest.1, rest.2)
    | none =>
      (rest.1, ("No coordinates found for city: " ++ m.city) :: rest.2)

/-- The arcs double loop of the GET handler: for `i < j` over `points`, push
`{startLat, startLng, endLat, endLng}`. -/
def computeArcs : List Point → List Arc
  | [] => []
  | p :: rest =>
    rest.map (fun q => ⟨p.lat, p.lng, q.lat, q.lng⟩) ++ computeArcs rest

/-- Specification-side enumeration of the arcs (from the spec's words): one
arc per index pair `(i, j)` with `i < j` over `points`, in order, carrying
the two endpoints' coordinates.  Used to state that `computeArcs` emits
exactly the complete graph. -/
def arcsSpecEnum (ps : List Point) : List Arc :=
  (List.range ps.length).flatMap (fun i =>
    ((List.range ps.length).drop (i + 1)).map (fun j =>
      { startLat := (ps.getD i default).lat, startLng := (ps.getD i default).lng,
        endLat := (ps.getD j default).lat, endLng := (ps.getD j default).lng }))

/-- The body of the GET visualization handler once the meeting is loaded:
resolve the roster with `getMembersByIds`, compute points and arcs, and
return the response together with the console-warning log. -/
def computeVisResponse (membersStore : List Member) (dataset : List City)
    (meeting : Meeting) : VisualizationResponse × List String :=
  let members := getMembersByIds membersStore meeting.participantIds
  let pl := computePointsLog dataset members
  (⟨⟨meeting.id, meeting.title, meeting.date⟩, pl.1, computeArcs pl.1⟩, pl.2)

/-- GET `/api/meetings/[id]/visualization`: 404 (`none`) when the meeting is
missing or invalid, otherwise the computed response plus console log. -/
def getVisualization (meetingsStore : List (String × Meeting))
    (membersStore : List Member) (dataset : List City) (meetingId : String) :
    Option (VisualizationResponse × List String) :=
  (loadMeeting meetingsStore meetingId).map (computeVisResponse membersStore dataset)

/-! ### Meeting creation endpoint (POST `/api/meetings`) -/

/-- The participant loop of the POST handler.  `freshIds` supplies one
`generateId()` result per iteration.  Returns the collected member ids, the
warnings returned to the caller, and the updated member collection.  A
participant for whom `findOrCreateMember` throws, or whose member has a falsy
id, contributes a warning instead of an id. -/
def addParticipants (freshIds : List String) (now : String)
    (participants : List (String × String)) (membersStore : List Member) :
    List String × List String × List Member :=
  match participants, freshIds with
  | [], _ => ([], [], membersStore)
  | (name, city) :: rest, fids =>
    let fid := fids.headD ""
    match findOrCreateMember fid now name city membersStore with
    | (Except.error msg, store') =>
      let r := addParticipants fids.tail now rest store'
      (r.1, ("Failed to add participant " ++ name ++ ": " ++ msg) :: r.2.1, r.2.2)
    | (Except.ok m, store') =>
      match m.id with
      | some s =>
        if s == "" then
          let r := addParticipants fids.tail now rest store'
          (r.1, ("Failed to add participant " ++ name ++ ": Member " ++ name
              ++ " has no ID") :: r.2.1, r.2.2)
        else
          let r := addParticipants fids.tail now rest store'
          (s :: r.1, r.2.1, r.2.2)
      | none =>
        let r := addParticipants fids.tail now rest store'
        (r.1, ("Failed to add participant " ++ name ++ ": Member " ++ name
            ++ " has no ID") :: r.2.1, r.2.2)

/-- `validateCreateMeetingInput` from `src/lib/validation.ts`
(`CreateMeetingInputSchema`): title 1–200 characters, at least one
participant, every participant with nonempty raw name and city. -/
def validCreateMeetingInput (title : String)
    (participants : List (String × String)) : Bool :=
  1 ≤ title.length && title.length ≤ 200 && !participants.isEmpty
    && participants.all (fun p => 1 ≤ p.1.length && 1 ≤ p.2.length)

/-- POST `/api/meetings`: validate the input, run the participant loop, create
the meeting.  On success returns (meeting, warnings returned to the caller)
and the two updated stores; an invalid body is a 400 (`Except.error`). -/
def postMeetings (freshIds : List String) (nowIso title : String)
    (participants : List (String × String)) (membersStore : List Member)
    (meetingsStore : List (String × Meeting)) :
    Except String ((Meeting × List String) × List Member × List (String × Meeting)) :=
  if validCreateMeetingInput title participants then
    let r := addParticipants freshIds nowIso participants membersStore
    let cm := createMeeting nowIso title r.1 meetingsStore
    Except.ok ((cm.1, r.2.1), r.2.2, cm.2)
  else Except.error "Invalid input data"

/-! ## Helper lemmas -/

/-! ### Character case lemmas -/

theorem char_toNat_ofNat_valid (n : Nat) (h : n.isValidChar) :
    (Char.ofNat n).toNat = n := by
  simp only [Char.ofNat, h, dite_true]
  simp [Char.ofNatAux, Char.toNat, UInt32.toNat]

theorem toLower_eq_or_range (c : Char) :
    Char.toLower c = c ∨ (97 ≤ (Char.toLower c).toNat ∧ (Char.toLower c).toNat ≤ 122) := by
  simp only [Char.toLower]
  by_cases h : c.toNat ≥ 65 ∧ c.toNat ≤ 90
  · right
    have hv : (c.toNat + 32).isValidChar := Or.inl (by omega)
    rw [if_pos h, char_toNat_ofNat_valid _ hv]
    omega
  · left
    rw [if_neg h]

theorem toUpper_eq_or_range (c : Char) :
    Char.toUpper c = c ∨ (65 ≤ (Char.toUpper c).toNat ∧ (Char.toUpper c).toNat ≤ 90) := by
  simp only [Char.toUpper]
  by_cases h : c.toNat ≥ 97 ∧ c.toNat ≤ 122
  · right
    have hv : (c.toNat - 32).isValidChar := Or.inl (by omega)
    rw [if_pos h, char_toNat_ofNat_valid _ hv]
    omega
  · left
    rw [if_neg h]

theorem toLower_fix_of_ge (d : Char) (h : 91 ≤ d.toNat) : Char.toLower d = d := by
  simp only [Char.toLower]
  rw [if_neg (by omega)]

theorem toUpper_fix_of_le (d : Char) (h : d.toNat ≤ 96) : Char.toUpper d = d := by
  simp only [Char.toUpper]
  rw [if_neg (by omega)]

theorem toLower_toLower (c : Char) : (Char.toLower c).toLower = Char.toLower c := by
  rcases toLower_eq_or_range c with h | ⟨h1, _⟩
  · rw [h]
    exact h
  · exact toLower_fix_of_ge _ (by omega)

theorem toUpper_toUpper (c : Char) : (Char.toUpper c).toUpper = Char.toUpper c := by
  rcases toUpper_eq_or_range c with h | ⟨_, h2⟩
  · rw [h]
    exact h
  · exact toUpper_fix_of_le _ (by omega)

theorem not_ws_of_toNat_ge (d : Char) (h : 65 ≤ d.toNat) : isWsChar d = false := by
  simp only [isWsChar, Char.isWhitespace, Bool.or_eq_false_iff,
    decide_eq_false_iff_not]
  refine ⟨⟨⟨?_, ?_⟩, ?_⟩, ?_⟩ <;> intro hd <;> subst hd <;>
    exact absurd h (by decide)

theorem isWs_toLower_false (c : Char) (h : isWsChar c = false) :
    isWsChar (Char.toLower c) = false := by
  rcases toLower_eq_or_range c with he | ⟨h1, _⟩
  · rw [he]
    exact h
  · exact not_ws_of_toNat_ge _ (by omega)

theorem isWs_toUpper_false (c : Char) (h : isWsChar c = false) :
    isWsChar (Char.toUpper c) = false := by
  rcases toUpper_eq_or_range c with he | ⟨h1, _⟩
  · rw [he]
    exact h
  · exact not_ws_of_toNat_ge _ (by omega)

/-! ### Lemmas about `words`, `joinWords` and `capitalizeWord` -/

theorem words_cons_eq (c : Char) (cs : List Char) :
    words (c :: cs) =
      if isWsChar c = true then words cs
      else match words cs, cs.head? with
        | w :: ws, some c' => if isWsChar c' = true then [c] :: w :: ws else (c :: w) :: ws
        | _, _ => [[c]] := rfl

theorem words_ws_cons (c : Char) (l : List Char) (h : isWsChar c = true) :
    words (c :: l) = words l := by
  rw [words_cons_eq, if_pos h]

theorem words_sound : ∀ (l : List Char),
    ∀ w ∈ words l, w ≠ [] ∧ ∀ c ∈ w, isWsChar c = false
  | [] => by intro w hw; simp [words] at hw
  | c :: cs => by
    intro w hw
    have ih := words_sound cs
    cases hc : isWsChar c with
    | true =>
      rw [words_ws_cons c cs hc] at hw
      exact ih w hw
    | false =>
      rw [words_cons_eq, if_neg (by simp [hc])] at hw
      rcases hws : words cs with _ | ⟨w₀, ws₀⟩ <;>
        rcases hh : cs.head? with _ | c' <;> rw [hws, hh] at hw
      · replace hw : w ∈ [[c]] := hw
        simp at hw
        subst hw
        exact ⟨by simp, by simp [hc]⟩
      · replace hw : w ∈ [[c]] := hw
        simp at hw
        subst hw
        exact ⟨by simp, by simp [hc]⟩
      · replace hw : w ∈ [[c]] := hw
        simp at hw
        subst hw
        exact ⟨by simp, by simp [hc]⟩
      · replace hw : w ∈ (if isWsChar c' = true then [c] :: w₀ :: ws₀
            else (c :: w₀) :: ws₀) := hw
        cases hc' : isWsChar c' with
        | true =>
          rw [if_pos hc'] at hw
          rcases List.mem_cons.mp hw with h1 | h1
          · subst h1
            exact ⟨by simp, by simp [hc]⟩
          · exact ih w (by rw [hws]; exact h1)
        | false =>
          rw [if_neg (by simp [hc'])] at hw
          rcases List.mem_cons.mp hw with h1 | h1
          · subst h1
            have hw₀ := ih w₀ (by rw [hws]; exact List.mem_cons_self _ _)
            refine ⟨by simp, ?_⟩
            intro a ha
            rcases List.mem_cons.mp ha with rfl | ha'
            · exact hc
            · exact hw₀.2 a ha'
          · exact ih w (by rw [hws]; exact List.mem_cons_of_mem _ h1)

theorem words_word_append : ∀ (w r : List Char), w ≠ [] →
    (∀ c ∈ w, isWsChar c = false) →
    (r = [] ∨ ∃ c' r', r = c' :: r' ∧ isWsChar c' = true) →
    words (w ++ r) = w :: words r
  | [], _, hw, _, _ => absurd rfl hw
  | [c], r, _, hnws, hr => by
    have hc : isWsChar c = false := hnws c (List.mem_cons_self _ _)
    rcases hr with rfl | ⟨c', r', rfl, hc'⟩
    · show words [c] = [c] :: words []
      rw [words_cons_eq, if_neg (by simp [hc])]
      rfl
    · show words (c :: c' :: r') = [c] :: words (c' :: r')
      rw [words_cons_eq, if_neg (by simp [hc]), List.head?_cons]
      rcases hws : words (c' :: r') with _ | ⟨w₀, ws₀⟩
      · rfl
      · show (if isWsChar c' = true then [c] :: w₀ :: ws₀ else (c :: w₀) :: ws₀)
            = [c] :: w₀ :: ws₀
        rw [if_pos hc']
  | c :: c₂ :: w'', r, _, hnws, hr => by
    have hc : isWsChar c = false := hnws c (List.mem_cons_self _ _)
    have hc₂ : isWsChar c₂ = false :=
      hnws c₂ (List.mem_cons_of_mem _ (List.mem_cons_self _ _))
    have hih := words_word_append (c₂ :: w'') r (by simp)
      (fun a ha => hnws a (List.mem_cons_of_mem _ ha)) hr
    rw [List.cons_append] at hih
    show words (c :: c₂ :: (w'' ++ r)) = (c :: c₂ :: w'') :: words r
    rw [words_cons_eq, if_neg (by simp [hc]), List.head?_cons, hih]
    show (if isWsChar c₂ = true then [c] :: (c₂ :: w'') :: words r
        else (c :: c₂ :: w'') :: words r) = (c :: c₂ :: w'') :: words r
    rw [if_neg (by simp [hc₂])]

theorem words_joinWords : ∀ (ws : List (List Char)),
    (∀ w ∈ ws, w ≠ [] ∧ ∀ c ∈ w, isWsChar c = false) →
    words (joinWords ws) = ws
  | [], _ => by simp [joinWords, words]
  | [w], h => by
    have hw := h w (List.mem_cons_self _ _)
    have := words_word_append w [] hw.1 hw.2 (Or.inl rfl)
    show words (joinWords [w]) = [w]
    rw [show joinWords [w] = w from rfl]
    simpa [words] using this
  | w :: w₂ :: rest, h => by
    have hw := h w (List.mem_cons_self _ _)
    have hsp : isWsChar ' ' = true := by decide
    have h1 := words_word_append w (' ' :: joinWords (w₂ :: rest)) hw.1 hw.2
      (Or.inr ⟨' ', joinWords (w₂ :: rest), rfl, hsp⟩)
    have h2 := words_ws_cons ' ' (joinWords (w₂ :: rest)) hsp
    have h3 := words_joinWords (w₂ :: rest)
      (fun a ha => h a (List.mem_cons_of_mem _ ha))
    show words (joinWords (w :: w₂ :: rest)) = w :: w₂ :: rest
    rw [show joinWords (w :: w₂ :: rest) = w ++ ' ' :: joinWords (w₂ :: rest) from rfl,
      h1, h2, h3]

theorem capitalizeWord_ne_nil (w : List Char) (hw : w ≠ []) :
    capitalizeWord w ≠ [] := by
  cases w with
  | nil => exact absurd rfl hw
  | cons c cs => simp [capitalizeWord]

theorem capitalizeWord_no_ws (w : List Char) (h : ∀ c ∈ w, isWsChar c = false) :
    ∀ c ∈ capitalizeWord w, isWsChar c = false := by
  cases w with
  | nil => intro c hc; simp [capitalizeWord] at hc
  | cons c cs =>
    intro a ha
    rcases List.mem_cons.mp ha with rfl | ha'
    · exact isWs_toUpper_false c (h c (List.mem_cons_self _ _))
    · rcases List.mem_map.mp ha' with ⟨b, hb, rfl⟩
      exact isWs_toLower_false b (h b (List.mem_cons_of_mem _ hb))

theorem capitalizeWord_idem (w : List Char) :
    capitalizeWord (capitalizeWord w) = capitalizeWord w := by
  cases w with
  | nil => rfl
  | cons c cs =>
    show c.toUpper.toUpper :: (cs.map Char.toLower).map Char.toLower
        = c.toUpper :: cs.map Char.toLower
    rw [toUpper_toUpper, List.map_map]
    congr 1
    exact List.map_congr_left (fun a _ => toLower_toLower a)

theorem normalized_words (t : List Char) :
    words (joinWords ((words t).map capitalizeWord)) = (words t).map capitalizeWord := by
  apply words_joinWords
  intro w hw
  rcases List.mem_map.mp hw with ⟨w₀, hw₀, rfl⟩
  have hs := words_sound t w₀ hw₀
  exact ⟨capitalizeWord_ne_nil w₀ hs.1, capitalizeWord_no_ws w₀ hs.2⟩

/-! ### Lemmas about the member registry -/

theorem replaceFirst_find? (p : Member → Bool) (x new : Member) :
    ∀ (l : List Member), l.find? p = some x → p new = true →
    (replaceFirst p new l).find? p = some new
  | [], h, _ => by simp at h
  | m :: ms, h, hp => by
    cases hpm : p m with
    | true =>
      simp only [replaceFirst, hpm, if_true]
      simp [List.find?_cons, hp]
    | false =>
      simp only [replaceFirst, hpm, Bool.false_eq_true, if_false]
      rw [List.find?_cons_of_neg _ (by simp [hpm])]
      rw [List.find?_cons_of_neg _ (by simp [hpm])] at h
      exact replaceFirst_find? p x new ms h hp

theorem memberMatches_self (nName nCity id createdAt :  String) :
    memberMatches nName nCity ⟨id, nName, nCity, createdAt⟩ = true := by
  simp [memberMatches]

theorem memberMatches_update_id (nName nCity : String) (m : Member) (i : Option String) :
    memberMatches nName nCity { m with id := i } = memberMatches nName nCity m := rfl

theorem findOrCreateMember_case_invalid (f now name city : String) (s : List Member)
    (hcond : (normalizeInput (some name) == "" || normalizeInput (some city) == "") = true) :
    findOrCreateMember f now name city s =
      (Except.error "Name and city are required", s) := by
  simp only [findOrCreateMember]
  rw [hcond]
  simp

theorem findOrCreateMember_case_new (f now name city : String) (s : List Member)
    (hcond : (normalizeInput (some name) == "" || normalizeInput (some city) == "") = false)
    (hfind : s.find? (memberMatches (normalizeInput (some name))
        (normalizeInput (some city))) = none) :
    findOrCreateMember f now name city s =
      (Except.ok ⟨some f, normalizeInput (some name), normalizeInput (some city), now⟩,
        s ++ [⟨some f, normalizeInput (some name), normalizeInput (some city), now⟩]) := by
  simp only [findOrCreateMember, findMember]
  rw [hcond, hfind]
  simp

theorem findOrCreateMember_case_found (f now name city : String) (s : List Member)
    (found : Member)
    (hcond : (normalizeInput (some name) == "" || normalizeInput (some city) == "") = false)
    (hfind : s.find? (memberMatches (normalizeInput (some name))
        (normalizeInput (some city))) = some found)
    (hfalsy : memberIdFalsy found = false) :
    findOrCreateMember f now name city s = (Except.ok found, s) := by
  simp only [findOrCreateMember, findMember]
  rw [hcond, hfind]
  simp [hfalsy]

theorem findOrCreateMember_case_fix (f now name city : String) (s : List Member)
    (found : Member)
    (hcond : (normalizeInput (some name) == "" || normalizeInput (some city) == "") = false)
    (hfind : s.find? (memberMatches (normalizeInput (some name))
        (normalizeInput (some city))) = some found)
    (hfalsy : memberIdFalsy found = true) :
    findOrCreateMember f now name city s =
      (Except.ok { found with id := some f },
        replaceFirst (memberMatches (normalizeInput (some name))
          (normalizeInput (some city))) { found with id := some f } s) := by
  simp only [findOrCreateMember, findMember]
  rw [hcond, hfind]
  simp [hfalsy]

/-- A successful `findOrCreateMember` implies both normalized inputs are
nonempty. -/
theorem findOrCreateMember_ok_nonempty (f now name city : String) (s : List Member)
    (m : Member) (h : (findOrCreateMember f now name city s).1 = Except.ok m) :
    (normalizeInput (some name) == "" || normalizeInput (some city) == "") = false := by
  cases hcond : (normalizeInput (some name) == "" || normalizeInput (some city) == "") with
  | true =>
    rw [findOrCreateMember_case_invalid f now name city s hcond] at h
    exact absurd h (by simp)
  | false => rfl

/-- After a successful `findOrCreateMember`, the resulting collection's first
member matching the normalized pair is exactly the returned member, and its
id is not falsy (provided the fresh id is a nonempty string, as `generateId`
always produces). -/
theorem findOrCreateMember_ok_state (f now name city : String) (s : List Member)
    (m : Member) (hf : f ≠ "")
    (h : (findOrCreateMember f now name city s).1 = Except.ok m) :
    ((findOrCreateMember f now name city s).2).find?
        (memberMatches (normalizeInput (some name)) (normalizeInput (some city)))
      = some m ∧ memberIdFalsy m = false := by
  have hcond := findOrCreateMember_ok_nonempty f now name city s m h
  rcases hfind : s.find? (memberMatches (normalizeInput (some name))
      (normalizeInput (some city))) with _ | found
  · rw [findOrCreateMember_case_new f now name city s hcond hfind] at h ⊢
    simp only [Except.ok.injEq] at h
    subst h
    constructor
    · rw [List.find?_append, hfind]
      simp [memberMatches_self]
    · simp [memberIdFalsy, hf]
  · cases hfalsy : memberIdFalsy found with
    | true =>
      rw [findOrCreateMember_case_fix f now name city s found hcond hfind hfalsy] at h ⊢
      simp only [Except.ok.injEq] at h
      subst h
      constructor
      · exact replaceFirst_find? _ found _ s hfind
          (by rw [memberMatches_update_id]; exact List.find?_some hfind)
      · simp [memberIdFalsy, hf]
    | false =>
      rw [findOrCreateMember_case_found f now name city s found hcond hfind hfalsy] at h ⊢
      simp only [Except.ok.injEq] at h
      subst h
      exact ⟨hfind, hfalsy⟩

/-! ### Lemmas about the meeting registry -/

theorem lookup_saveMeeting : ∀ (store : List (String × Meeting)) (m : Meeting),
    (saveMeeting store m).lookup m.id = some m
  | [], m => by simp [saveMeeting, List.lookup]
  | (k, v) :: rest, m => by
    by_cases h : (k == m.id) = true
    · have hk : k = m.id := by simpa using h
      subst hk
      simp [saveMeeting, List.lookup]
    · have hk : k ≠ m.id := by simpa using h
      have hne : (m.id == k) = false := beq_eq_false_iff_ne.mpr (Ne.symm hk)
      simp only [saveMeeting, h, Bool.false_eq_true, if_false]
      simp [List.lookup, hne, lookup_saveMeeting rest m]

theorem generateMeetingId_length (t d : String) :
    1 ≤ (generateMeetingId t d).length := by
  have hdash : ("-" : String).length = 1 := rfl
  simp [generateMeetingId, String.length_append, hdash]
  omega

theorem validateMeeting_valid (m : Meeting) (h1 : 1 ≤ m.id.length)
    (h2 : 1 ≤ m.title.length) (h3 : m.title.length ≤ 200)
    (h4 : m.createdAt.all isIsoDatetime = true) :
    validateMeeting m = some m := by
  simp [validateMeeting, h1, h2, h3, h4]

/-! ### Lemmas about the arcs computation -/

theorem map_getD_range (d : Point) : ∀ (ps : List Point),
    (List.range ps.length).map (fun j => ps.getD j d) = ps
  | [] => by simp
  | p :: ps => by
    rw [List.length_cons, List.range_succ_eq_map]
    simp only [List.map_cons, List.getD_cons_zero, List.map_map]
    congr 1
    have hcomp : ((fun j => (p :: ps).getD j d) ∘ Nat.succ) = fun j => ps.getD j d := by
      funext j
      simp [List.getD_cons_succ]
    rw [hcomp, map_getD_range d ps]

theorem map_getD_range_comp (F : Point → Arc) (d : Point) (ps : List Point) :
    (List.range ps.length).map (fun j => F (ps.getD j d)) = ps.map F := by
  conv_rhs => rw [← map_getD_range d ps]
  rw [List.map_map]
  rfl

theorem flatMap_map_list {α β γ : Type} (h : α → β) (f : β → List γ) :
    ∀ (l : List α), (l.map h).flatMap f = l.flatMap (fun a => f (h a))
  | [] => rfl
  | a :: l => by
    rw [List.map_cons, List.flatMap_cons, List.flatMap_cons, flatMap_map_list h f l]

theorem flatMap_congr_fun {α β : Type} : ∀ (l : List α) (f g : α → List β),
    (∀ a ∈ l, f a = g a) → l.flatMap f = l.flatMap g
  | [], _, _, _ => rfl
  | a :: l, f, g, h => by
    rw [List.flatMap_cons, List.flatMap_cons, h a (List.mem_cons_self _ _),
      flatMap_congr_fun l f g (fun b hb => h b (List.mem_cons_of_mem _ hb))]

theorem computeArcs_eq_arcsSpecEnum : ∀ (ps : List Point),
    computeArcs ps = arcsSpecEnum ps
  | [] => by simp [computeArcs, arcsSpecEnum]
  | p :: ps => by
    have ih := computeArcs_eq_arcsSpecEnum ps
    show (ps.map fun q => (⟨p.lat, p.lng, q.lat, q.lng⟩ : Arc)) ++ computeArcs ps
        = arcsSpecEnum (p :: ps)
    unfold arcsSpecEnum
    rw [List.length_cons, List.range_succ_eq_map]
    simp only [List.flatMap_cons]
    congr 1
    · simp only [List.drop_succ_cons, List.drop_zero, List.map_map,
        List.getD_cons_zero]
      have hcomp : ((fun j => (⟨p.lat, p.lng, ((p :: ps).getD j default).lat,
            ((p :: ps).getD j default).lng⟩ : Arc)) ∘ Nat.succ)
          = fun j => (⟨p.lat, p.lng, (ps.getD j default).lat,
            (ps.getD j default).lng⟩ : Arc) := by
        funext j
        simp [List.getD_cons_succ]
      rw [hcomp]
      exact (map_getD_range_comp (fun q => ⟨p.lat, p.lng, q.lat, q.lng⟩) default ps).symm
    · rw [ih]
      unfold arcsSpecEnum
      rw [flatMap_map_list]
      apply flatMap_congr_fun
      intro i _
      rw [List.drop_succ_cons, ← List.map_drop, List.map_map]
      apply List.map_congr_left
      intro j _
      simp [List.getD_cons_succ]

theorem computeArcs_length_doubled : ∀ (ps : List Point),
    2 * (computeArcs ps).length = ps.length * (ps.length - 1)
  | [] => rfl
  | p :: ps => by
    have ih := computeArcs_length_doubled ps
    show 2 * ((ps.map fun q => (⟨p.lat, p.lng, q.lat, q.lng⟩ : Arc))
        ++ computeArcs ps).length = (p :: ps).length * ((p :: ps).length - 1)
    rw [List.length_append, List.length_map, List.length_cons]
    have key : ps.length * (ps.length - 1) + 2 * ps.length
        = (ps.length + 1) * (ps.length + 1 - 1) := by
      cases ps with
      | nil => rfl
      | cons q qs => simp [Nat.succ_sub_one]; ring
    linarith [ih, key]

theorem computeArcs_length (ps : List Point) :
    (computeArcs ps).length = ps.length * (ps.length - 1) / 2 := by
  rw [← computeArcs_length_doubled ps, Nat.mul_div_cancel_left _ (by norm_num)]

/-! ### Lemmas about the points computation -/

theorem computePointsLog_cons_some (ds : List City) (m : Member) (ms : List Member)
    (la ln : Rat) (h : getCityCoordinates ds m.city = some (la, ln)) :
    computePointsLog ds (m :: ms) =
      ((⟨m.id, m.name, m.city, la, ln⟩ : Point) :: (computePointsLog ds ms).1,
        (computePointsLog ds ms).2) := by
  simp only [computePointsLog]
  rw [h]

theorem computePointsLog_cons_none (ds : List City) (m : Member) (ms : List Member)
    (h : getCityCoordinates ds m.city = none) :
    computePointsLog ds (m :: ms) =
      ((computePointsLog ds ms).1,
        ("No coordinates found for city: " ++ m.city) :: (computePointsLog ds ms).2) := by
  simp only [computePointsLog]
  rw [h]

theorem computePointsLog_memberId_sublist (ds : List City) : ∀ (members : List Member),
    ((computePointsLog ds members).1.map Point.memberId).Sublist
      (members.map Member.id)
  | [] => by simp [computePointsLog]
  | m :: ms => by
    have ih := computePointsLog_memberId_sublist ds ms
    rcases h : getCityCoordinates ds m.city with _ | ⟨la, ln⟩
    · rw [computePointsLog_cons_none ds m ms h, List.map_cons]
      exact ih.cons _
    · rw [computePointsLog_cons_some ds m ms la ln h, List.map_cons, List.map_cons]
      exact ih.cons₂ _

theorem computePointsLog_point_resolvable (ds : List City) : ∀ (members : List Member),
    ∀ p ∈ (computePointsLog ds members).1, (getCityCoordinates ds p.cityName).isSome
  | [] => by simp [computePointsLog]
  | m :: ms => by
    intro p hp
    have ih := computePointsLog_point_resolvable ds ms
    rcases h : getCityCoordinates ds m.city with _ | ⟨la, ln⟩
    · rw [computePointsLog_cons_none ds m ms h] at hp
      exact ih p hp
    · rw [computePointsLog_cons_some ds m ms la ln h] at hp
      rcases List.mem_cons.mp hp with rfl | hp'
      · simpa using congrArg Option.isSome h
      · exact ih p hp'

theorem computePointsLog_warns (ds : List City) : ∀ (members : List Member),
    ∀ m ∈ members, getCityCoordinates ds m.city = none →
    ("No coordinates found for city: " ++ m.city) ∈ (computePointsLog ds members).2
  | [] => by simp
  | m₀ :: ms => by
    intro m hm hnone
    have ih := computePointsLog_warns ds ms
    rcases List.mem_cons.mp hm with rfl | hm'
    · rw [computePointsLog_cons_none ds m ms hnone]
      exact List.mem_cons_self _ _
    · rcases h : getCityCoordinates ds m₀.city with _ | ⟨la, ln⟩
      · rw [computePointsLog_cons_none ds m₀ ms h]
        exact List.mem_cons_of_mem _ (ih m hm' hnone)
      · rw [computePointsLog_cons_some ds m₀ ms la ln h]
        exact ih m hm' hnone

/-! ### Lemmas about `getMembersByIds` -/

theorem filterMap_congr_fun {α β : Type} : ∀ (l : List α) (f g : α → Option β),
    (∀ a ∈ l, f a = g a) → l.filterMap f = l.filterMap g
  | [], _, _, _ => rfl
  | a :: l, f, g, h => by
    rw [List.filterMap_cons, List.filterMap_cons, h a (List.mem_cons_self _ _),
      filterMap_congr_fun l f g (fun b hb => h b (List.mem_cons_of_mem _ hb))]

theorem getMembersByIds_eq_filterMap (members : List Member) (ids : List String) :
    getMembersByIds members ids
      = ids.filterMap (fun i => members.find? (fun m => m.id == some i)) := by
  unfold getMembersByIds
  rw [List.filterMap_map]
  apply filterMap_congr_fun
  intro i _
  show (match members.find? (fun m => m.id == some i) with
    | some m => if m.id.isSome = true then some m else none
    | none => none) = members.find? (fun m => m.id == some i)
  cases hf : members.find? (fun m => m.id == some i) with
  | none => rfl
  | some m =>
    have hid : (m.id == some i) = true :=
      @List.find?_some Member (fun x : Member => x.id == some i) m members hf
    have hsome : m.id.isSome = true := by
      rcases hmid : m.id with _ | s
      · rw [hmid] at hid
        simp at hid
      · rfl
    simp [hsome]

theorem getMembersByIds_id_sublist (members : List Member) : ∀ (ids : List String),
    ((getMembersByIds members ids).map Member.id).Sublist (ids.map some)
  | [] => by simp [getMembersByIds]
  | i :: ids => by
    have ih := getMembersByIds_id_sublist members ids
    rw [getMembersByIds_eq_filterMap] at ih ⊢
    rw [List.filterMap_cons, List.map_cons]
    cases hf : members.find? (fun m => m.id == some i) with
    | none =>
      exact ih.cons _
    | some m =>
      have hid : m.id = some i := by
        have h1 := @List.find?_some Member (fun x : Member => x.id == some i) m members hf
        simpa using h1
      show ((m :: ids.filterMap fun i => members.find? fun m => m.id == some i).map
        Member.id).Sublist (some i :: ids.map some)
      rw [List.map_cons, hid]
      exact ih.cons₂ _

/-! ## Claim theorems -/

/-- C6: the Normalizer is idempotent — for every string `x`, including the
empty string, whitespace-only strings and absent input,
`normalizeInput (normalizeInput x) = normalizeInput x`. -/
theorem normalizeInput_idempotent (x : Option String) :
    normalizeInput (some (normalizeInput x)) = normalizeInput x := by
  cases x with
  | none => rfl
  | some t =>
    show String.mk (joinWords ((words (String.mk (joinWords
          ((words t.data).map capitalizeWord))).data).map capitalizeWord))
        = String.mk (joinWords ((words t.data).map capitalizeWord))
    rw [show (String.mk (joinWords ((words t.data).map capitalizeWord))).data
        = joinWords ((words t.data).map capitalizeWord) from rfl]
    rw [normalized_words t.data]
    rw [List.map_map]
    congr 2
    exact List.map_congr_left (fun w _ => capitalizeWord_idem w)

/-- C1: two `findOrCreateMember` invocations whose argument pairs normalize
to the same (name, city) pair — i.e. differ only in letter case and
leading/trailing/internal whitespace — return members with the same id, and
the second invocation leaves the stored member collection unchanged (no new
record is appended).  `f₁ ≠ ""` says the first invocation's `generateId`
result is a nonempty string, which a UUID always is. -/
theorem findOrCreateMember_dedup (f₁ now₁ f₂ now₂ name₁ city₁ name₂ city₂ : String)
    (s₀ : List Member) (m₁ : Member) (hf : f₁ ≠ "")
    (hn : normalizeInput (some name₁) = normalizeInput (some name₂))
    (hc : normalizeInput (some city₁) = normalizeInput (some city₂))
    (h₁ : (findOrCreateMember f₁ now₁ name₁ city₁ s₀).1 = Except.ok m₁) :
    ∃ m₂,
      (findOrCreateMember f₂ now₂ name₂ city₂
          ((findOrCreateMember f₁ now₁ name₁ city₁ s₀).2)).1 = Except.ok m₂
      ∧ m₂.id = m₁.id
      ∧ (findOrCreateMember f₂ now₂ name₂ city₂
          ((findOrCreateMember f₁ now₁ name₁ city₁ s₀).2)).2
        = (findOrCreateMember f₁ now₁ name₁ city₁ s₀).2 := by
  obtain ⟨hfind, hfalsy⟩ := findOrCreateMember_ok_state f₁ now₁ name₁ city₁ s₀ m₁ hf h₁
  have hcond := findOrCreateMember_ok_nonempty f₁ now₁ name₁ city₁ s₀ m₁ h₁
  have hcond₂ : (normalizeInput (some name₂) == ""
      || normalizeInput (some city₂) == "") = false := by
    rw [← hn, ← hc]
    exact hcond
  have hfind₂ : ((findOrCreateMember f₁ now₁ name₁ city₁ s₀).2).find?
      (memberMatches (normalizeInput (some name₂)) (normalizeInput (some city₂)))
      = some m₁ := by
    rw [← hn, ← hc]
    exact hfind
  refine ⟨m₁, ?_, rfl, ?_⟩
  · rw [findOrCreateMember_case_found f₂ now₂ name₂ city₂ _ m₁ hcond₂ hfind₂ hfalsy]
  · rw [findOrCreateMember_case_found f₂ now₂ name₂ city₂ _ m₁ hcond₂ hfind₂ hfalsy]

/-- Witness for C1: adding `("Alice", "Paris")` and then
`("  aLiCe ", "PARIS")` to an empty registry reuses the id `"u1"` of the
first member and leaves the collection unchanged. -/
theorem findOrCreateMember_dedup_witness :
    ∃ m₂, (findOrCreateMember "u2" "t2" "  aLiCe " "PARIS"
        ((findOrCreateMember "u1" "t1" "Alice" "Paris" []).2)).1 = Except.ok m₂
      ∧ m₂.id = (⟨some "u1", "Alice", "Paris", "t1"⟩ : Member).id
      ∧ (findOrCreateMember "u2" "t2" "  aLiCe " "PARIS"
          ((findOrCreateMember "u1" "t1" "Alice" "Paris" []).2)).2
        = (findOrCreateMember "u1" "t1" "Alice" "Paris" []).2 :=
  findOrCreateMember_dedup "u1" "t1" "u2" "t2" "Alice" "Paris" "  aLiCe " "PARIS" []
    ⟨some "u1", "Alice", "Paris", "t1"⟩ (by decide) (by decide) (by decide) rfl

/-- C7: `findOrCreateMember` throws exactly when the normalized name or the
normalized city is empty, and when it throws the stored member collection is
unchanged (nothing is persisted). -/
theorem findOrCreateMember_requires (freshId now name city : String)
    (members : List Member) :
    ((∃ e, (findOrCreateMember freshId now name city members).1 = Except.error e)
      ↔ (normalizeInput (some name) = "" ∨ normalizeInput (some city) = ""))
    ∧ ((normalizeInput (some name) = "" ∨ normalizeInput (some city) = "") →
        (findOrCreateMember freshId now name city members).2 = members) := by
  cases hcond : (normalizeInput (some name) == "" || normalizeInput (some city) == "") with
  | true =>
    rw [findOrCreateMember_case_invalid freshId now name city members hcond]
    refine ⟨⟨fun _ => ?_, fun _ => ⟨_, rfl⟩⟩, fun _ => rfl⟩
    simpa using hcond
  | false =>
    have hval : ¬(normalizeInput (some name) = "" ∨ normalizeInput (some city) = "") := by
      simpa using hcond
    refine ⟨⟨fun he => absurd ?_ hval, fun habs => absurd habs hval⟩,
      fun habs => absurd habs hval⟩
    exfalso
    obtain ⟨e, he⟩ := he
    rcases hfind : members.find? (memberMatches (normalizeInput (some name))
        (normalizeInput (some city))) with _ | found
    · rw [findOrCreateMember_case_new freshId now name city members hcond hfind] at he
      simp at he
    · cases hfalsy : memberIdFalsy found with
      | true =>
        rw [findOrCreateMember_case_fix freshId now name city members found
          hcond hfind hfalsy] at he
        simp at he
      | false =>
        rw [findOrCreateMember_case_found freshId now name city members found
          hcond hfind hfalsy] at he
        simp at he

/-- Witness for C7: a whitespace-only name throws and persists nothing. -/
theorem findOrCreateMember_requires_witness :
    (∃ e, (findOrCreateMember "u1" "t" "   " "Paris" []).1 = Except.error e)
    ∧ (findOrCreateMember "u1" "t" "   " "Paris" []).2 = [] :=
  ⟨(findOrCreateMember_requires "u1" "t" "   " "Paris" []).1.mpr (Or.inl (by decide)),
    (findOrCreateMember_requires "u1" "t" "   " "Paris" []).2 (Or.inl (by decide))⟩

/-- C3: the City Resolver's lookup (`getCityByName` of `src/lib/cities.ts`)
is case-insensitive but space-sensitive: the lookup key is the lower-cased,
trimmed name with internal spaces preserved, so two names with the same key
resolve identically; and `"NewYork"` never resolves to an entry keyed
`"new york"` — it resolves only when the dataset contains the exact spaceless
key `"newyork"`. -/
theorem getCityByName_caseInsensitive_spaceSensitive :
    (∀ (ds : List City) (a b : String), normalizeCityName a = normalizeCityName b →
        getCityByName ds a = getCityByName ds b)
    ∧ (∀ ds : List City, (∀ c ∈ ds, c.normalizedName ≠ "newyork") →
        getCityByName ds "NewYork" = none)
    ∧ (∀ (ds : List City) (c : City), getCityByName ds "NewYork" = some c →
        c.normalizedName = "newyork") := by
  have hkey : normalizeCityName "NewYork" = "newyork" := by decide
  refine ⟨?_, ?_, ?_⟩
  · intro ds a b h
    unfold getCityByName
    rw [h]
  · intro ds h
    unfold getCityByName
    rw [hkey]
    apply List.find?_eq_none.mpr
    intro c hc
    have hne := h c (List.mem_reverse.mp hc)
    simp [hne]
  · intro ds c h
    unfold getCityByName at h
    have h1 := @List.find?_some City
      (fun c => c.normalizedName == normalizeCityName "NewYork") c ds.reverse h
    rw [hkey] at h1
    simpa using h1

/-- Witness for C3: on a dataset keyed `"new york"`, the inputs `"New York"`
and `"  new YORK  "` resolve identically, while `"NewYork"` does not resolve. -/
theorem getCityByName_caseInsensitive_spaceSensitive_witness :
    getCityByName [⟨"new york", "New York", 40, -74, none, none⟩] "New York"
      = getCityByName [⟨"new york", "New York", 40, -74, none, none⟩] "  new YORK  "
    ∧ getCityByName [⟨"new york", "New York", 40, -74, none, none⟩] "NewYork" = none :=
  ⟨getCityByName_caseInsensitive_spaceSensitive.1
      [⟨"new york", "New York", 40, -74, none, none⟩] "New York" "  new YORK  "
      (by decide),
    getCityByName_caseInsensitive_spaceSensitive.2.1
      [⟨"new york", "New York", 40, -74, none, none⟩] (by decide)⟩

/-- C8: `getMembersByIds` never throws (it is a total function); it returns,
in the order the ids were given, the first stored member matching each id,
silently dropping ids with no matching member: it equals a `filterMap` of the
per-id lookup, and is compositional over concatenation of id lists. -/
theorem getMembersByIds_spec (members : List Member) (ids : List String) :
    getMembersByIds members ids
      = ids.filterMap (fun i => members.find? (fun m => m.id == some i))
    ∧ ∀ ids₂, getMembersByIds members (ids ++ ids₂)
      = getMembersByIds members ids ++ getMembersByIds members ids₂ := by
  refine ⟨getMembersByIds_eq_filterMap members ids, fun ids₂ => ?_⟩
  rw [getMembersByIds_eq_filterMap, getMembersByIds_eq_filterMap,
    getMembersByIds_eq_filterMap, List.filterMap_append]

/-- C10: `loadMembers` is total (never throws): a missing file and unreadable
or unparsable JSON both yield `[]`, and parsed data is returned as-is even
when it fails `safeValidateMembers` — member-record invariants such as a
non-empty id are not enforced at load time. -/
theorem loadMembers_total_lenient :
    loadMembers MembersFile.missing = []
    ∧ loadMembers MembersFile.unparsable = []
    ∧ (∀ data, safeValidateMembers data = none →
        loadMembers (MembersFile.parsed data) = data)
    ∧ (∀ data, loadMembers (MembersFile.parsed data) = data) := by
  refine ⟨rfl, rfl, fun data h => by simp [loadMembers, h], fun data => ?_⟩
  unfold loadMembers safeValidateMembers
  by_cases h : data.all validRawMember
  · simp [h]
  · simp [h]

/-- Witness for C10: a parsed record with no id at all (which fails the
member schema) is returned untouched by `loadMembers`. -/
theorem loadMembers_total_lenient_witness :
    loadMembers (MembersFile.parsed
        [⟨none, some "Ada", some "Paris", some "2026-01-10T00:00:00.000Z"⟩])
      = [⟨none, some "Ada", some "Paris", some "2026-01-10T00:00:00.000Z"⟩] :=
  loadMembers_total_lenient.2.2.1 _ (by decide)

/-- C2: for every meeting, the computed visualization's arcs are exactly the
complete graph over the computed points: `|arcs| = n(n-1)/2`, the arc list is
precisely the enumeration of unordered index pairs `(i, j)` with `i < j` in
order, each arc carrying the two endpoints' coordinates, and the points
appear in the meeting's participant order (their member ids form a
subsequence of `participantIds`). -/
theorem visualization_complete_graph (membersStore : List Member)
    (dataset : List City) (meeting : Meeting) :
    (computeVisResponse membersStore dataset meeting).1.arcs.length
      = (computeVisResponse membersStore dataset meeting).1.points.length
        * ((computeVisResponse membersStore dataset meeting).1.points.length - 1) / 2
    ∧ (computeVisResponse membersStore dataset meeting).1.arcs
      = arcsSpecEnum (computeVisResponse membersStore dataset meeting).1.points
    ∧ ((computeVisResponse membersStore dataset meeting).1.points.map
        Point.memberId).Sublist (meeting.participantIds.map some) :=
  ⟨computeArcs_length _, computeArcs_eq_arcsSpecEnum _,
    (computePointsLog_memberId_sublist dataset _).trans
      (getMembersByIds_id_sublist membersStore meeting.participantIds)⟩

/-- C4 (amended): a participant whose member record exists but whose city
does not resolve is excluded from `points` (no point carries that city), and
the city is named in the `console.warn` log of the visualization handler —
not in any warnings list of the response returned to the caller. -/
theorem visualization_unresolved_city (membersStore : List Member)
    (dataset : List City) (meeting : Meeting) (m : Member)
    (hm : m ∈ getMembersByIds membersStore meeting.participantIds)
    (hnone : getCityCoordinates dataset m.city = none) :
    (∀ p ∈ (computeVisResponse membersStore dataset meeting).1.points,
        p.cityName ≠ m.city)
    ∧ ("No coordinates found for city: " ++ m.city)
        ∈ (computeVisResponse membersStore dataset meeting).2 := by
  constructor
  · intro p hp heq
    have hres := computePointsLog_point_resolvable dataset
      (getMembersByIds membersStore meeting.participantIds) p hp
    rw [heq, hnone] at hres
    simp at hres
  · exact computePointsLog_warns dataset _ m hm hnone

/-- Witness for C4 (amended): the member `Zed` of unresolvable city
`Atlantis` is excluded from the points of his meeting's visualization and the
city is named in the console log. -/
theorem visualization_unresolved_city_witness :
    (∀ p ∈ (computeVisResponse
        [⟨some "u1", "Zed", "Atlantis", "2026-01-10T10:00:00.000Z"⟩]
        [⟨"paris", "Paris", 48, 2, none, none⟩]
        ⟨"standup-2026-01-10", "Standup", "2026-01-10", ["u1"],
          some "2026-01-10T10:00:00.000Z"⟩).1.points,
        p.cityName ≠ "Atlantis")
    ∧ ("No coordinates found for city: " ++ "Atlantis")
        ∈ (computeVisResponse
            [⟨some "u1", "Zed", "Atlantis", "2026-01-10T10:00:00.000Z"⟩]
            [⟨"paris", "Paris", 48, 2, none, none⟩]
            ⟨"standup-2026-01-10", "Standup", "2026-01-10", ["u1"],
              some "2026-01-10T10:00:00.000Z"⟩).2 :=
  visualization_unresolved_city
    [⟨some "u1", "Zed", "Atlantis", "2026-01-10T10:00:00.000Z"⟩]
    [⟨"paris", "Paris", 48, 2, none, none⟩]
    ⟨"standup-2026-01-10", "Standup", "2026-01-10", ["u1"],
      some "2026-01-10T10:00:00.000Z"⟩
    ⟨some "u1", "Zed", "Atlantis", "2026-01-10T10:00:00.000Z"⟩
    (by decide) (by decide)

/-- Counterexample for C4 as stated: creating a meeting with participant
`(Zed, Atlantis)`, where `Atlantis` has no coordinates, returns an empty
warnings list to the caller (the POST response's only warnings channel), and
the subsequent GET visualization excludes Zed from `points` while naming
`Atlantis` only in the server console log — the response returned to the
caller carries no warnings list at all, so the unresolved city never appears
in one. -/
theorem visualization_unresolved_city_cex :
    postMeetings ["u1"] "2026-01-10T10:00:00.000Z" "Standup" [("Zed", "Atlantis")] [] []
      = Except.ok
          ((⟨"standup-2026-01-10", "Standup", "2026-01-10", ["u1"],
              some "2026-01-10T10:00:00.000Z"⟩, []),
            [⟨some "u1", "Zed", "Atlantis", "2026-01-10T10:00:00.000Z"⟩],
            [("standup-2026-01-10",
              ⟨"standup-2026-01-10", "Standup", "2026-01-10", ["u1"],
                some "2026-01-10T10:00:00.000Z"⟩)])
    ∧ getVisualization
        [("standup-2026-01-10",
          ⟨"standup-2026-01-10", "Standup", "2026-01-10", ["u1"],
            some "2026-01-10T10:00:00.000Z"⟩)]
        [⟨some "u1", "Zed", "Atlantis", "2026-01-10T10:00:00.000Z"⟩]
        [⟨"paris", "Paris", 48, 2, none, none⟩]
        "standup-2026-01-10"
      = some (⟨⟨"standup-2026-01-10", "Standup", "2026-01-10"⟩, [], []⟩,
          ["No coordinates found for city: Atlantis"]) :=
  ⟨rfl, rfl⟩

/-- C5 (amended): `loadMeeting` applied to the id of the meeting
`createMeeting` just returned yields that same record, provided the title
has between 1 and 200 characters (so that the stored record passes the
Meeting schema on load) and the clock produced a well-formed ISO timestamp. -/
theorem createMeeting_loadMeeting_roundtrip (nowIso title : String)
    (pids : List String) (store : List (String × Meeting))
    (h1 : 1 ≤ title.length) (h2 : title.length ≤ 200)
    (h3 : isIsoDatetime nowIso = true) :
    loadMeeting (createMeeting nowIso title pids store).2
        (createMeeting nowIso title pids store).1.id
      = some (createMeeting nowIso title pids store).1 := by
  have hm : (createMeeting nowIso title pids store).1
      = ⟨generateMeetingId title (datePart nowIso), title, datePart nowIso,
          pids, some nowIso⟩ := rfl
  have hs : (createMeeting nowIso title pids store).2
      = saveMeeting store ⟨generateMeetingId title (datePart nowIso), title,
          datePart nowIso, pids, some nowIso⟩ := rfl
  rw [hm, hs]
  unfold loadMeeting
  rw [lookup_saveMeeting]
  exact validateMeeting_valid _ (generateMeetingId_length title (datePart nowIso))
    h1 h2 h3

/-- Witness for C5 (amended): round-trip of a concrete valid meeting. -/
theorem createMeeting_loadMeeting_roundtrip_witness :
    loadMeeting (createMeeting "2026-01-10T00:00:00.000Z" "Standup" ["u1"] []).2
        (createMeeting "2026-01-10T00:00:00.000Z" "Standup" ["u1"] []).1.id
      = some (createMeeting "2026-01-10T00:00:00.000Z" "Standup" ["u1"] []).1 :=
  createMeeting_loadMeeting_roundtrip "2026-01-10T00:00:00.000Z" "Standup" ["u1"] []
    (by decide) (by decide) (by decide)

/-- Counterexample for C5 as stated: with the empty title — an input
`createMeeting` accepts and persists — the stored record fails the Meeting
schema on load, so `loadMeeting` returns `none` rather than the record
`createMeeting` returned. -/
theorem createMeeting_loadMeeting_roundtrip_cex :
    ¬ (loadMeeting (createMeeting "2026-01-10T00:00:00.000Z" "" ["u1"] []).2
          (createMeeting "2026-01-10T00:00:00.000Z" "" ["u1"] []).1.id
        = some (createMeeting "2026-01-10T00:00:00.000Z" "" ["u1"] []).1) := by
  decide

/-- C9: two `createMeeting` invocations on the same calendar date whose
titles slugify identically produce the identical meeting id; the second
silently overwrites the stored record of the first (the store maps that id to
the second record), and a subsequent `loadMeeting` of that id returns the
second meeting's record (when the second title is schema-valid). -/
theorem createMeeting_collision_overwrites (now₁ now₂ t₁ t₂ : String)
    (pids₁ pids₂ : List String) (store : List (String × Meeting))
    (hslug : slugify t₁ = slugify t₂) (hdate : datePart now₁ = datePart now₂) :
    (createMeeting now₂ t₂ pids₂ (createMeeting now₁ t₁ pids₁ store).2).1.id
      = (createMeeting now₁ t₁ pids₁ store).1.id
    ∧ ((createMeeting now₂ t₂ pids₂ (createMeeting now₁ t₁ pids₁ store).2).2).lookup
        (createMeeting now₁ t₁ pids₁ store).1.id
      = some (createMeeting now₂ t₂ pids₂ (createMeeting now₁ t₁ pids₁ store).2).1
    ∧ (1 ≤ t₂.length → t₂.length ≤ 200 → isIsoDatetime now₂ = true →
        loadMeeting (createMeeting now₂ t₂ pids₂ (createMeeting now₁ t₁ pids₁ store).2).2
            (createMeeting now₁ t₁ pids₁ store).1.id
          = some (createMeeting now₂ t₂ pids₂ (createMeeting now₁ t₁ pids₁ store).2).1) := by
  have hid : (createMeeting now₂ t₂ pids₂ (createMeeting now₁ t₁ pids₁ store).2).1.id
      = (createMeeting now₁ t₁ pids₁ store).1.id := by
    show generateMeetingId t₂ (datePart now₂) = generateMeetingId t₁ (datePart now₁)
    unfold generateMeetingId
    rw [hslug, hdate]
  have hm₂ : (createMeeting now₂ t₂ pids₂ (createMeeting now₁ t₁ pids₁ store).2).1
      = ⟨generateMeetingId t₂ (datePart now₂), t₂, datePart now₂,
          pids₂, some now₂⟩ := rfl
  have hs₂ : (createMeeting now₂ t₂ pids₂ (createMeeting now₁ t₁ pids₁ store).2).2
      = saveMeeting (createMeeting now₁ t₁ pids₁ store).2
          ⟨generateMeetingId t₂ (datePart now₂), t₂, datePart now₂,
            pids₂, some now₂⟩ := rfl
  refine ⟨hid, ?_, ?_⟩
  · rw [← hid, hm₂, hs₂]
    exact lookup_saveMeeting _ _
  · intro h1 h2 h3
    rw [← hid, hm₂, hs₂]
    unfold loadMeeting
    rw [lookup_saveMeeting]
    exact validateMeeting_valid _
      (generateMeetingId_length t₂ (datePart now₂)) h1 h2 h3

/-- Witness for C9: `"Team Standup"` and `"team standup!!"` collide on the
same date; the id is shared and the load returns the second record. -/
theorem createMeeting_collision_overwrites_witness :
    (createMeeting "2026-01-10T09:30:00.000Z" "team standup!!" ["b"]
        ((createMeeting "2026-01-10T08:00:00.000Z" "Team Standup" ["a"] []).2)).1.id
      = (createMeeting "2026-01-10T08:00:00.000Z" "Team Standup" ["a"] []).1.id
    ∧ loadMeeting (createMeeting "2026-01-10T09:30:00.000Z" "team standup!!" ["b"]
          ((createMeeting "2026-01-10T08:00:00.000Z" "Team Standup" ["a"] []).2)).2
        ((createMeeting "2026-01-10T08:00:00.000Z" "Team Standup" ["a"] []).1.id)
      = some (createMeeting "2026-01-10T09:30:00.000Z" "team standup!!" ["b"]
          ((createMeeting "2026-01-10T08:00:00.000Z" "Team Standup" ["a"] []).2)).1 := by
  obtain ⟨h1, h2, h3⟩ := createMeeting_collision_overwrites
    "2026-01-10T08:00:00.000Z" "2026-01-10T09:30:00.000Z" "Team Standup"
    "team standup!!" ["a"] ["b"] [] (by decide) (by decide)
  exact ⟨h1, h3 (by decide) (by decide) (by decide)⟩

end GPM
